import Mathlib

/-!
# Verification of the tap-freshdesk sync engine

A shallow embedding of `tap_freshdesk/__init__.py`: the request executor with
its backoff/give-up policy, the paginator `gen_request`, the custom-field
transform `transform_dict`, the watermark store (`get_start`,
`utils.update_state`), and the two sync strategies
(`sync_tickets_by_filter`, `sync_time_filtered`), modelled as pure functions
producing explicit event traces.

Python dicts of JSON values are modelled as association lists in insertion
order; Python string comparison (`>=` on ISO-8601 timestamps) is the
code-point-lexicographic comparator `pyLe`; record emission (`singer.write_record`),
watermark advance (`utils.update_state`) and state persistence
(`singer.write_state`) become events in a trace.
-/

namespace TapFreshdesk

/-- A JSON-ish scalar value as it appears in API records
(`transform_dict` only ever inspects values through Python `str()`). -/
inductive Value where
  | str (s : String)
  | bool (b : Bool)
  | int (n : Int)
  deriving DecidableEq, Repr

/-- Python `str(v)` on a scalar: strings are themselves, booleans render as
`True`/`False`, integers in decimal. -/
def pyStr : Value → String
  | .str s => s
  | .bool true => "True"
  | .bool false => "False"
  | .int n => toString n

/-- Python `s.lower()` (ASCII case folding, which covers every string this
program lowercases: `True`/`False` and custom-field payloads). -/
def pyLower (s : String) : String := ⟨s.data.map Char.toLower⟩

/-- Python `a <= b` on lists of code points: lexicographic comparison. -/
def lexLe : List Char → List Char → Bool
  | [], _ => true
  | _ :: _, [] => false
  | a :: as, b :: bs =>
    if a.toNat < b.toNat then true
    else if b.toNat < a.toNat then false
    else lexLe as bs

/-- Python `a <= b` on strings (so Python's `x >= y` is `pyLe y x`): code
points compared lexicographically, which on the ISO-8601 timestamps this
program compares coincides with chronological order. -/
def pyLe (a b : String) : Bool := lexLe a.data b.data

/-- A Python dict in insertion order: an association list. -/
abbrev Dict := List (String × Value)

/-- Function `transform_dict` (lines 101–109), defaults
`key_key="name"`, `value_key="value"`, `force_str=False`: one `{key_key: k, value_key: v}` entry per input pair, in
input order; with `force_str`, `v = str(v).lower()`. -/
def transform_dict (d : Dict) (key_key : String := "name")
    (value_key : String := "value") (force_str : Bool := false) :
    List (List (String × Value)) :=
  d.map fun kv =>
    let v := if force_str then Value.str (pyLower (pyStr kv.2)) else kv.2
    [(key_key, Value.str kv.1), (value_key, v)]

/-- The persisted sync state `STATE`: bookmark namespace → ISO-8601 timestamp
string, as an association list (first binding wins on lookup). -/
abbrev SyncState := List (String × String)

/-- Lookup `STATE[entity]` (also deciding `entity in STATE`). -/
def lookupState (state : SyncState) (entity : String) : Option String :=
  (state.find? fun kv => kv.1 = entity).map (·.2)

/-- Function `get_start` (lines 65–72): the stored watermark when present,
otherwise the epoch for `contacts`/`companies`/`agents` and the configured
`start_date` for every other entity. `configStart` stands for
`CONFIG['start_date']`. -/
def get_start (state : SyncState) (configStart : String) (entity : String) :
    String :=
  match lookupState state entity with
  | none =>
    if entity = "contacts" ∨ entity = "companies" ∨ entity = "agents" then
      "1970-01-01T00:00:00Z"
    else configStart
  | some v => v

/-- Modelled from the spec: `utils.update_state` lives in
`tap_freshdesk/utils.py`, which is not part of the provided source. Spec
§4.3: "`advance(namespace, timestamp)`: unconditionally overwrites the stored
watermark for that namespace with the given value". -/
def update_state (state : SyncState) (entity v : String) : SyncState :=
  (entity, v) :: state.filter fun kv => kv.1 ≠ entity

/-- Page size `PER_PAGE = 100` (line 15). -/
def PER_PAGE : Nat := 100

/-! ## Paginator (`gen_request`, lines 75–98)

The upstream API is modelled as a function from page number to the list of
records that page returns. `gen_request` is a generator; its full run is the
list of records yielded, in yield order, paired with the number of page
requests it issued. The Python `while True` loop may diverge when every page
is full, so the model takes fuel and returns `none` when the fuel runs out
before a short page is reached. -/

/-- One iteration step of `gen_request`: request page `page` (with
`per_page = PER_PAGE`), yield its rows, then either move to `page + 1` (when
the page held exactly `PER_PAGE` rows) or stop. -/
def gen_request_go {R : Type} (pages : Nat → List R) :
    Nat → Nat → Option (List R × Nat)
  | 0, _ => none
  | fuel + 1, page =>
    let data := pages page
    if data.length = PER_PAGE then
      match gen_request_go pages fuel (page + 1) with
      | none => none
      | some (rest, n) => some (data ++ rest, n + 1)
    else
      some (data, 1)

/-- Generator `gen_request(url, params)`: pagination starts at `page = 1`. Returns the
yielded records in order and the number of page requests issued. -/
def gen_request {R : Type} (pages : Nat → List R) (fuel : Nat) :
    Option (List R × Nat) :=
  gen_request_go pages fuel 1

/-! ## Request executor (`request`, lines 38–62)

The decorated `request` is driven by a script: the list of responses the
server would give to successive sends. Each response either parses fine
(`ok`), carries a `Retry-After` header (`retryAfter` — the code sleeps and
re-invokes the decorated `request`, with a fresh backoff budget), raises
`HTTPError` from `raise_for_status` (`httpErr`, carrying the response's
status and body), or fails at transport level before any response exists
(`transportErr`, `e.response is None`).

The `backoff.on_exception` decorator (`max_tries=5`, `factor=2`,
`giveup = e.response is not None and 400 <= e.response.status_code < 500`)
retries a raised `RequestException` unless `giveup` holds or 5 attempts are
exhausted, sleeping `factor * 2^(n-1)` (the nominal `backoff.expo` delay)
before the `n+1`-th attempt. The `@utils.ratelimit(1, 2)` decorator only
inserts sleeps and is not observable in this model. -/

/-- Retry budget `MAX_TRIES = 5` (`max_tries=5`, line 40). -/
def MAX_TRIES : Nat := 5

/-- Backoff factor `FACTOR = 2` (`factor=2`, line 42). -/
def FACTOR : Nat := 2

/-- The server's response to one send, as `request` observes it. -/
inductive Outcome where
  | ok (body : String)
  | retryAfter (secs : Nat)
  | httpErr (status : Nat) (body : String)
  | transportErr
  deriving DecidableEq, Repr

/-- A raised `requests.exceptions.RequestException`: either an `HTTPError`
with a response (status and body) or a transport error with no response. -/
inductive ReqError where
  | http (status : Nat) (body : String)
  | transport
  deriving DecidableEq, Repr

/-- The decorator's `giveup` predicate (line 41):
`e.response is not None and 400 <= e.response.status_code < 500`. -/
def giveup : ReqError → Bool
  | .http status _ => decide (400 ≤ status) && decide (status < 500)
  | .transport => false

/-- Result of a full `request` call: the returned body or the propagated
exception, the unconsumed tail of the script, and the nominal backoff delays
slept between attempts (in order). -/
structure ReqOut where
  result : Except ReqError String
  rest : List Outcome
  delays : List Nat
  deriving Repr

/-- One decorated `request` call at attempt number `attempt` (1-based within
the current decorator activation). An exception raised by an attempt is
propagated when `giveup` holds or the attempt budget is spent, otherwise the
decorator sleeps the nominal `expo` delay `FACTOR * 2 ^ (attempt - 1)` and
retries. Fuel covers the `Retry-After` recursion; `none` means the script
ran out or the fuel did. -/
def request_go : Nat → List Outcome → Nat → Option ReqOut
  | 0, _, _ => none
  | _ + 1, [], _ => none
  | fuel + 1, o :: rest, attempt =>
    match o with
    | .ok body => some ⟨.ok body, rest, []⟩
    | .httpErr status body =>
      if giveup (.http status body) || MAX_TRIES ≤ attempt then
        some ⟨.error (.http status body), rest, []⟩
      else
        match request_go fuel rest (attempt + 1) with
        | none => none
        | some out =>
          some ⟨out.result, out.rest, FACTOR * 2 ^ (attempt - 1) :: out.delays⟩
    | .transportErr =>
      if giveup .transport || MAX_TRIES ≤ attempt then
        some ⟨.error .transport, rest, []⟩
      else
        match request_go fuel rest (attempt + 1) with
        | none => none
        | some out =>
          some ⟨out.result, out.rest, FACTOR * 2 ^ (attempt - 1) :: out.delays⟩
    | .retryAfter _ =>
      -- sleep, then `return request(url, params)`: a fresh decorated call
      -- whose own exceptions surface inside this decorator activation
      match request_go fuel rest 1 with
      | none => none
      | some out =>
        match out.result with
        | .ok body => some ⟨.ok body, out.rest, out.delays⟩
        | .error e =>
          if giveup e || MAX_TRIES ≤ attempt then
            some ⟨.error e, out.rest, out.delays⟩
          else
            match request_go fuel out.rest (attempt + 1) with
            | none => none
            | some out2 =>
              some ⟨out2.result, out2.rest,
                out.delays ++ FACTOR * 2 ^ (attempt - 1) :: out2.delays⟩

/-- Function `request(url, params)`: the decorated call starts at attempt 1. -/
def request (fuel : Nat) (script : List Outcome) : Option ReqOut :=
  request_go fuel script 1

/-- Recognizes the response outcomes the spec calls "transport-level or
server (5xx) errors": a raised exception that the `giveup` predicate lets
the decorator retry. -/
def serverOrTransport : Outcome → Bool
  | .transportErr => true
  | .httpErr status _ => decide (500 ≤ status)
  | _ => false

/-- The `RequestException` an error outcome raises (only meaningful for
`httpErr` and `transportErr` outcomes). -/
def raisedErr : Outcome → ReqError
  | .httpErr status body => .http status body
  | _ => .transport

/-! ## Sync orchestrator (`sync_tickets_by_filter` lines 140–212,
`sync_time_filtered` lines 215–233)

The orchestrator is modelled over the records the API returns for the
configured request. For tickets the request carries
`updated_since=start, order_by=updated_at, order_type=asc` (lines 149–154):
the model takes the resulting ticket list as an input, since only the API
enforces those parameters. Record emission, watermark advance and state
persistence are recorded as trace events in program order. -/

/-- A ticket record as returned by the ticket listing: its `id`, bookmark
field `updated_at`, the `custom_fields` dict when the key is present, and
the `attachments` payload when present (popped before emission, line 164).
Remaining fields are never inspected and are omitted. -/
structure TicketRow where
  id : Nat
  updated_at : String
  custom_fields : Option Dict
  attachments : Option Value
  deriving DecidableEq, Repr

/-- A sub-resource record (conversation, satisfaction rating or time entry):
`id`, bookmark `updated_at`, and the `ratings` dict (inspected only for
satisfaction ratings, line 185). -/
structure SubRow where
  id : Nat
  updated_at : String
  ratings : Dict
  deriving DecidableEq, Repr

/-- A flat-entity record: `id`, bookmark `updated_at`, and the
`custom_fields` dict when the key is present (line 227 guards on presence). -/
structure FlatRow where
  id : Nat
  updated_at : String
  custom_fields : Option Dict
  deriving DecidableEq, Repr

/-- The ticket record as emitted (line 211): `attachments` popped,
`custom_fields` replaced by its force-string transform. -/
structure OutTicket where
  id : Nat
  updated_at : String
  custom_fields : List (List (String × Value))
  deriving DecidableEq, Repr

/-- A satisfaction-rating record as emitted (line 187): `ratings` replaced
by its `key_key="question"` transform. -/
structure OutSat where
  id : Nat
  updated_at : String
  ratings : List (List (String × Value))
  deriving DecidableEq, Repr

/-- A flat-entity record as emitted (line 231): `custom_fields` transformed
when present, the record unchanged otherwise. -/
structure OutFlat where
  id : Nat
  updated_at : String
  custom_fields : Option (List (List (String × Value)))
  deriving DecidableEq, Repr

/-- The emitted shape of a flat-entity row (lines 226–231): custom fields
transformed (force-string) when the key is present, untouched otherwise. -/
def outFlat (r : FlatRow) : OutFlat :=
  ⟨r.id, r.updated_at,
    r.custom_fields.map fun cf => transform_dict cf "name" "value" true⟩

/-- The emitted shape of a ticket row (lines 164–165, 211): `attachments`
popped, `custom_fields` transformed in force-string mode (a `KeyError` is
raised first when the key is absent, so `getD` is only reached on `some`). -/
def outTicketRow (r : TicketRow) : OutTicket :=
  ⟨r.id, r.updated_at,
    transform_dict (r.custom_fields.getD []) "name" "value" true⟩

/-- A record handed to the record sink (`singer.write_record`). -/
inductive Rec where
  | ticket (t : OutTicket)
  | sub (s : SubRow)
  | satisfaction (s : OutSat)
  | flat (r : OutFlat)
  deriving DecidableEq, Repr

/-- The bookmark (`updated_at`) carried by an emitted record. -/
def bookmarkOf : Rec → String
  | .ticket t => t.updated_at
  | .sub s => s.updated_at
  | .satisfaction s => s.updated_at
  | .flat r => r.updated_at

/-- One observable action of a run: a record emission
(`singer.write_record` with its stream name), a watermark advance
(`utils.update_state` with namespace and value), or a state persistence
(`singer.write_state`). -/
inductive Event where
  | emit (stream : String) (r : Rec)
  | advance (ns : String) (v : String)
  | writeState
  deriving DecidableEq, Repr

/-- Outcome of paginating one sub-resource endpoint of one ticket: the rows
it served, or the status of the `HTTPError` the fetch raised. -/
inductive Fetch where
  | ok (rows : List SubRow)
  | err (status : Nat)
  deriving DecidableEq, Repr

/-- An error that aborts the run: a propagated `HTTPError` (fatal at
`do_sync`, line 259) or a Python `KeyError` from a missing dict key
(uncaught anywhere, fatal in `main`). -/
inductive RunError where
  | http (status : Nat)
  | keyError (key : String)
  deriving DecidableEq, Repr

/-- One ticket together with what its three sub-resource endpoints return
(lines 171, 184, 196). -/
structure TicketInput where
  row : TicketRow
  conversations : Fetch
  satisfaction_fetch : Fetch
  time_entries : Fetch
  deriving DecidableEq, Repr

/-- One `try`-block over a sub-resource fetch: the rows whose bookmark
passes `subrow[bookmark_property] >= start` are emitted under `stream`
(shaped by `mk`); an `HTTPError` whose status satisfies `recover` is
swallowed (lines 176–180, 188–192, 200–208), any other one propagates. -/
def syncSubFetch (stream : String) (start : String) (f : Fetch)
    (mk : SubRow → Rec) (recover : Nat → Bool) :
    Except RunError (List Event) :=
  match f with
  | .ok rows =>
    .ok ((rows.filter fun r => pyLe start r.updated_at).map
      fun r => Event.emit stream (mk r))
  | .err s => if recover s then .ok [] else .error (.http s)

/-- The emitted shape of a satisfaction rating:
`subrow['ratings'] = transform_dict(subrow['ratings'], key_key="question")`
(line 185). -/
def mkSat (r : SubRow) : Rec :=
  .satisfaction ⟨r.id, r.updated_at, transform_dict r.ratings "question"⟩

/-- The loop body of `sync_tickets_by_filter` (lines 162–212) over the
remaining tickets: per ticket, read `row['custom_fields']` (a `KeyError`
when absent), sync the three sub-resources with their recovery policies,
then advance the watermark, emit the ticket and persist state. Returns the
trace up to the first fatal error, the final state, and the fatal error if
one occurred. -/
def syncTicketsGo (state_entity start : String) (state : SyncState) :
    List TicketInput → List Event × SyncState × Option RunError
  | [] => ([], state, none)
  | t :: rest =>
    match t.row.custom_fields with
    | none => ([], state, some (.keyError "custom_fields"))
    | some cf =>
      let tcf := transform_dict cf "name" "value" true
      match syncSubFetch "conversations" start t.conversations Rec.sub
          (fun s => s = 403) with
      | .error e => ([], state, some e)
      | .ok convEvents =>
      match syncSubFetch "satisfaction_ratings" start t.satisfaction_fetch
          mkSat (fun s => s = 403) with
      | .error e => (convEvents, state, some e)
      | .ok satEvents =>
      match syncSubFetch "time_entries" start t.time_entries Rec.sub
          (fun s => s = 403 || s = 404) with
      | .error e => (convEvents ++ satEvents, state, some e)
      | .ok teEvents =>
        let state' := update_state state state_entity t.row.updated_at
        let events := convEvents ++ satEvents ++ teEvents ++
          [Event.advance state_entity t.row.updated_at,
           Event.emit "tickets" (.ticket ⟨t.row.id, t.row.updated_at, tcf⟩),
           Event.writeState]
        let res := syncTicketsGo state_entity start state' rest
        (events ++ res.1, res.2)

/-- Function `sync_tickets_by_filter(bookmark_property, predefined_filter)`
(lines 140–212): the bookmark namespace is `tickets` or
`tickets_<filter>`; the starting watermark comes from `get_start`; `inputs`
are the tickets the API returns for the
`updated_since=start, order_by=updated_at, order_type=asc` request. -/
def sync_tickets_by_filter (configStart : String) (state : SyncState)
    (predefined_filter : Option String) (inputs : List TicketInput) :
    List Event × SyncState × Option RunError :=
  let state_entity :=
    match predefined_filter with
    | none => "tickets"
    | some f => "tickets_" ++ f
  let start := get_start state configStart state_entity
  syncTicketsGo state_entity start state inputs

/-- The loop of `sync_time_filtered` (lines 225–231): a row whose bookmark
fails `row[bookmark_property] >= start` is skipped; otherwise its custom
fields are transformed when present, the watermark is advanced, and the
record is emitted. -/
def syncFlatGo (entity start : String) (state : SyncState) :
    List FlatRow → List Event × SyncState
  | [] => ([], state)
  | r :: rest =>
    if pyLe start r.updated_at then
      let state' := update_state state entity r.updated_at
      let res := syncFlatGo entity start state' rest
      (Event.advance entity r.updated_at ::
        Event.emit entity (.flat (outFlat r)) :: res.1, res.2)
    else
      syncFlatGo entity start state rest

/-- Function `sync_time_filtered(entity)` (lines 215–233): flat sync of one
entity; `rows` are the records `gen_request(get_url(entity))` yields (no
extra query parameters, line 225); state is persisted once at the end
(line 233). -/
def sync_time_filtered (configStart : String) (state : SyncState)
    (entity : String) (rows : List FlatRow) : List Event × SyncState :=
  let start := get_start state configStart entity
  let res := syncFlatGo entity start state rows
  (res.1 ++ [Event.writeState], res.2)

/-! ## Trace observations -/

/-- The successive values stored into the watermark by a trace's advances. -/
def advances : List Event → List String
  | [] => []
  | .advance _ v :: rest => v :: advances rest
  | _ :: rest => advances rest

/-- How many records a trace emits in total (calls to the record sink). -/
def emitCount : List Event → Nat
  | [] => 0
  | .emit _ _ :: rest => 1 + emitCount rest
  | _ :: rest => emitCount rest

/-- The records a trace emits under stream `s`, in order. -/
def emittedStream (s : String) : List Event → List Rec
  | [] => []
  | .emit s' r :: rest =>
    if s' = s then r :: emittedStream s rest else emittedStream s rest
  | _ :: rest => emittedStream s rest

/-- Checks that every watermark advance stores a value that some record
emitted **earlier** in the trace carried as its bookmark (`seen` collects
the bookmarks emitted so far). -/
def advanceOnlyAfterEmit (seen : List String) : List Event → Bool
  | [] => true
  | .advance _ v :: rest => seen.contains v && advanceOnlyAfterEmit seen rest
  | .emit _ r :: rest => advanceOnlyAfterEmit (bookmarkOf r :: seen) rest
  | .writeState :: rest => advanceOnlyAfterEmit seen rest

/-- Checks that every watermark advance is immediately followed by the
emission of a record carrying the advanced value as its bookmark. -/
def advanceThenEmit : List Event → Bool
  | [] => true
  | .advance _ v :: rest =>
    (match rest with
     | .emit _ r :: _ => bookmarkOf r = v
     | _ => false) && advanceThenEmit rest
  | _ :: rest => advanceThenEmit rest

/-! ## C7: `transform_dict` -/

/-- **C7.** For every input map, `transform_dict` returns a list with exactly
one `{key_key: k, value_key: v}` entry per input key, in input order,
preserving all original keys; with `force_str` enabled every value is
rendered as a string (`str(v).lower()`), and boolean values render as the
lower-case literals `"true"` / `"false"`. -/
theorem C7_transform_dict_normalizes (d : Dict) (kk vk : String) :
    transform_dict d kk vk false
      = d.map (fun p => [(kk, Value.str p.1), (vk, p.2)]) ∧
    transform_dict d kk vk true
      = d.map (fun p => [(kk, Value.str p.1),
          (vk, Value.str (pyLower (pyStr p.2)))]) ∧
    (∀ force : Bool, (transform_dict d kk vk force).length = d.length) ∧
    (∀ force : Bool,
      (transform_dict d kk vk force).map (fun e => e.head?)
        = d.map (fun p => some (kk, Value.str p.1))) ∧
    (∀ e ∈ transform_dict d kk vk true, ∀ kv ∈ e, kv.1 = vk →
      ∃ s, kv.2 = Value.str s) ∧
    (∀ k : String, ∀ b : Bool, (k, Value.bool b) ∈ d →
      [(kk, Value.str k), (vk, Value.str (if b then "true" else "false"))]
        ∈ transform_dict d kk vk true) := by
  refine ⟨rfl, rfl, ?_, ?_, ?_, ?_⟩
  · intro force; simp [transform_dict]
  · intro force; simp [transform_dict]
  · intro e he kv hkv hk
    simp only [transform_dict, List.mem_map] at he
    obtain ⟨p, -, rfl⟩ := he
    simp only [List.mem_cons, List.not_mem_nil, or_false] at hkv
    rcases hkv with h | h
    · exact ⟨_, by rw [h]⟩
    · exact ⟨pyLower (pyStr p.2), by rw [h]; simp⟩
  · intro k b hmem
    simp only [transform_dict, List.mem_map]
    refine ⟨(k, Value.bool b), hmem, ?_⟩
    cases b <;> simp [pyStr, pyLower]

/-- **C7 witness.** The spec's concrete scenario: the custom-fields map
`{"cf_color": true, "cf_size": "10"}` with force-string enabled produces
one `{name, value}` entry per key, the boolean rendered as `"true"`. -/
theorem C7_transform_dict_normalizes_witness :
    [("name", Value.str "cf_color"), ("value", Value.str "true")]
      ∈ transform_dict [("cf_color", Value.bool true),
          ("cf_size", Value.str "10")] "name" "value" true ∧
    (transform_dict [("cf_color", Value.bool true),
        ("cf_size", Value.str "10")] "name" "value" true).length = 2 := by
  have h := C7_transform_dict_normalizes
    [("cf_color", Value.bool true), ("cf_size", Value.str "10")] "name" "value"
  refine ⟨?_, ?_⟩
  · have hb := h.2.2.2.2.2 "cf_color" true (by simp)
    simpa using hb
  · have hl := h.2.2.1 true
    simpa using hl

/-! ## C8: `get_start` -/

/-- **C8.** `get_start(entity)` returns the stored watermark when the
entity's namespace is in the persisted state; otherwise the epoch exactly
for `contacts`, `companies`, `agents`, and the configured global start date
for every other entity. -/
theorem C8_get_start_cases (state : SyncState) (configStart entity : String) :
    (∀ v, lookupState state entity = some v →
      get_start state configStart entity = v) ∧
    (lookupState state entity = none →
      ((entity = "contacts" ∨ entity = "companies" ∨ entity = "agents") →
        get_start state configStart entity = "1970-01-01T00:00:00Z") ∧
      (¬(entity = "contacts" ∨ entity = "companies" ∨ entity = "agents") →
        get_start state configStart entity = configStart)) := by
  refine ⟨fun v hv => ?_, fun h => ⟨fun he => ?_, fun he => ?_⟩⟩
  · simp [get_start, hv]
  · simp [get_start, h, he]
  · simp [get_start, h, he]

/-- **C8 witness.** A stored `tickets` watermark is returned as-is; with no
stored state, `contacts` starts at the epoch and `roles` at the configured
start date. -/
theorem C8_get_start_cases_witness :
    get_start [("tickets", "2023-05-01T00:00:00Z")] "2020-01-01T00:00:00Z"
        "tickets" = "2023-05-01T00:00:00Z" ∧
    get_start [] "2020-01-01T00:00:00Z" "contacts" = "1970-01-01T00:00:00Z" ∧
    get_start [] "2020-01-01T00:00:00Z" "roles" = "2020-01-01T00:00:00Z" := by
  refine ⟨?_, ?_, ?_⟩
  · exact (C8_get_start_cases [("tickets", "2023-05-01T00:00:00Z")]
      "2020-01-01T00:00:00Z" "tickets").1 "2023-05-01T00:00:00Z" (by decide)
  · exact ((C8_get_start_cases [] "2020-01-01T00:00:00Z" "contacts").2
      (by decide)).1 (by decide)
  · exact ((C8_get_start_cases [] "2020-01-01T00:00:00Z" "roles").2
      (by decide)).2 (by decide)

/-! ## C5: `gen_request` pagination -/

/-- Characterization of the pagination loop from an arbitrary starting page:
if the `n` pages starting at `start` are exactly full and page `start + n`
is not, the loop yields pages `start, …, start + n` concatenated in order
and issues `n + 1` page requests. -/
theorem gen_request_go_spec {R : Type} (pages : Nat → List R) :
    ∀ (n fuel start : Nat),
      (∀ i, i < n → (pages (start + i)).length = PER_PAGE) →
      (pages (start + n)).length ≠ PER_PAGE → n < fuel →
      gen_request_go pages fuel start
        = some (((List.range' start (n + 1)).map pages).flatten, n + 1) := by
  intro n
  induction n with
  | zero =>
    intro fuel start _ hshort hfuel
    match fuel, hfuel with
    | fuel + 1, _ =>
      simp only [gen_request_go]
      rw [if_neg (by simpa using hshort)]
      simp [List.range']
  | succ n ih =>
    intro fuel start hfull hshort hfuel
    match fuel, hfuel with
    | fuel + 1, hfuel =>
      simp only [gen_request_go]
      rw [if_pos (by simpa using hfull 0 (Nat.succ_pos n))]
      rw [ih fuel (start + 1)
        (fun i hi => by
          have := hfull (i + 1) (Nat.succ_lt_succ hi)
          simpa [Nat.add_assoc, Nat.add_comm 1 i] using this)
        (by
          have : start + 1 + n = start + (n + 1) := by omega
          rw [this]; exact hshort)
        (Nat.lt_of_succ_lt_succ hfuel)]
      simp [List.range']

/-- **C5.** `gen_request` yields records individually in the order received,
starting at page 1 with `per_page = PER_PAGE = 100`, incrementing the page
counter by 1 only after a full page, and terminating after the first page
with fewer than `PER_PAGE` records: when pages `1, …, k-1` hold exactly
`PER_PAGE` records and page `k` fewer, it yields the concatenation of pages
`1, …, k` and issues exactly `k` page requests. -/
theorem C5_gen_request_pagination {R : Type} (pages : Nat → List R)
    (k fuel : Nat) (hk : 1 ≤ k) (hfuel : k ≤ fuel)
    (hfull : ∀ p, 1 ≤ p → p < k → (pages p).length = PER_PAGE)
    (hshort : (pages k).length < PER_PAGE) :
    gen_request pages fuel = some (((List.range' 1 k).map pages).flatten, k) := by
  have hk1 : k - 1 + 1 = k := Nat.succ_pred_eq_of_pos hk
  have h := gen_request_go_spec pages (k - 1) fuel 1
    (fun i hi => hfull (1 + i) (Nat.le_add_right 1 i) (by omega))
    (by rw [(by omega : 1 + (k - 1) = k)]; exact Nat.ne_of_lt hshort)
    (by omega)
  rw [gen_request, h, hk1]

/-- **C5 witness.** The spec's synthetic API: 250 records served as pages of
100/100/50 yield exactly 250 records in 3 page requests. -/
theorem C5_gen_request_pagination_witness :
    (gen_request
        (fun p => if p ≤ 2 then List.range 100
          else if p = 3 then List.range 50 else ([] : List Nat)) 3).map
      (fun pr => (pr.1.length, pr.2)) = some (250, 3) := by
  rw [C5_gen_request_pagination
    (fun p => if p ≤ 2 then List.range 100
      else if p = 3 then List.range 50 else ([] : List Nat)) 3 3
    (by decide) (by decide)
    (fun p h1 h3 => by interval_cases p <;> simp [PER_PAGE])
    (by simp [PER_PAGE])]
  simp [List.range']

/-! ## C6: request retry policy -/

/-- Retryable errors before a success: starting at attempt `attempt`, a run
of retryable outcomes followed by a success returns the success, sleeping
the nominal exponential delays `FACTOR * 2 ^ (attempt - 1 + i)`. -/
theorem request_go_errs_ok :
    ∀ (errs : List Outcome) (fuel attempt : Nat) (body : String)
      (rest : List Outcome),
      (∀ o ∈ errs, serverOrTransport o = true) → 1 ≤ attempt →
      attempt + errs.length ≤ MAX_TRIES → errs.length + 1 ≤ fuel →
      request_go fuel (errs ++ .ok body :: rest) attempt
        = some ⟨.ok body, rest,
            (List.range errs.length).map
              fun i => FACTOR * 2 ^ (attempt - 1 + i)⟩ := by
  intro errs
  induction errs with
  | nil =>
    intro fuel attempt body rest _ _ _ hfuel
    match fuel, hfuel with
    | fuel + 1, _ => simp [request_go]
  | cons o errs ih =>
    intro fuel attempt body rest hall h1 hmax hfuel
    match fuel, hfuel with
    | fuel + 1, hfuel =>
      have ho := hall o (List.mem_cons_self ..)
      have hmax' : attempt + (errs.length + 1) ≤ 5 := by
        simpa [MAX_TRIES] using hmax
      have hfuel' : errs.length + 1 + 1 ≤ fuel + 1 := by simpa using hfuel
      have hrec := ih fuel (attempt + 1) body rest
        (fun o' h => hall o' (List.mem_cons_of_mem _ h)) (by omega)
        (by simp only [MAX_TRIES]; omega) (by omega)
      have hdel : FACTOR * 2 ^ (attempt - 1)
            :: (List.range errs.length).map
                (fun i => FACTOR * 2 ^ (attempt + 1 - 1 + i))
          = (List.range (errs.length + 1)).map
              fun i => FACTOR * 2 ^ (attempt - 1 + i) := by
        rw [List.range_succ_eq_map, List.map_cons, List.map_map]
        refine congrArg₂ List.cons (by simp) ?_
        refine List.map_congr_left fun i _ => ?_
        show FACTOR * 2 ^ (attempt + 1 - 1 + i)
          = FACTOR * 2 ^ (attempt - 1 + Nat.succ i)
        have hexp : attempt + 1 - 1 + i = attempt - 1 + Nat.succ i := by omega
        rw [hexp]
      cases o with
      | ok b' => simp [serverOrTransport] at ho
      | retryAfter n => simp [serverOrTransport] at ho
      | transportErr =>
        simp only [List.cons_append, request_go]
        rw [if_neg (by simp [giveup, MAX_TRIES]; omega)]
        simp only [List.append_eq, hrec]
        rw [hdel]
        simp [List.length_cons]
      | httpErr s b' =>
        simp only [serverOrTransport, decide_eq_true_eq] at ho
        simp only [List.cons_append, request_go]
        rw [if_neg (by simp [giveup, MAX_TRIES]; omega)]
        simp only [List.append_eq, hrec]
        rw [hdel]
        simp [List.length_cons]

/-- Exhausting the budget: starting at attempt `attempt`, retryable outcomes
filling the remaining budget end with the last raised error propagated after
the nominal delays. -/
theorem request_go_errs_exhaust :
    ∀ (errs : List Outcome) (o : Outcome) (fuel attempt : Nat)
      (rest : List Outcome),
      (∀ o' ∈ errs, serverOrTransport o' = true) →
      serverOrTransport o = true → 1 ≤ attempt →
      attempt + errs.length = MAX_TRIES → errs.length + 1 ≤ fuel →
      request_go fuel (errs ++ o :: rest) attempt
        = some ⟨.error (raisedErr o), rest,
            (List.range errs.length).map
              fun i => FACTOR * 2 ^ (attempt - 1 + i)⟩ := by
  intro errs
  induction errs with
  | nil =>
    intro o fuel attempt rest _ ho h1 hmax hfuel
    have hmax' : attempt = 5 := by simpa [MAX_TRIES] using hmax
    match fuel, hfuel with
    | fuel + 1, _ =>
      cases o with
      | ok b' => simp [serverOrTransport] at ho
      | retryAfter n => simp [serverOrTransport] at ho
      | transportErr =>
        simp only [List.nil_append, request_go]
        rw [if_pos (by simp [giveup, MAX_TRIES, hmax'])]
        simp [raisedErr]
      | httpErr s b' =>
        simp only [List.nil_append, request_go]
        rw [if_pos (by simp [giveup, MAX_TRIES, hmax'])]
        simp [raisedErr]
  | cons o' errs ih =>
    intro o fuel attempt rest hall ho h1 hmax hfuel
    match fuel, hfuel with
    | fuel + 1, hfuel =>
      have ho' := hall o' (List.mem_cons_self ..)
      have hmax' : attempt + (errs.length + 1) = 5 := by
        simpa [MAX_TRIES] using hmax
      have hfuel' : errs.length + 1 + 1 ≤ fuel + 1 := by simpa using hfuel
      have hrec := ih o fuel (attempt + 1) rest
        (fun x h => hall x (List.mem_cons_of_mem _ h)) ho (by omega)
        (by simp only [MAX_TRIES]; omega) (by omega)
      have hdel : FACTOR * 2 ^ (attempt - 1)
            :: (List.range errs.length).map
                (fun i => FACTOR * 2 ^ (attempt + 1 - 1 + i))
          = (List.range (errs.length + 1)).map
              fun i => FACTOR * 2 ^ (attempt - 1 + i) := by
        rw [List.range_succ_eq_map, List.map_cons, List.map_map]
        refine congrArg₂ List.cons (by simp) ?_
        refine List.map_congr_left fun i _ => ?_
        show FACTOR * 2 ^ (attempt + 1 - 1 + i)
          = FACTOR * 2 ^ (attempt - 1 + Nat.succ i)
        have hexp : attempt + 1 - 1 + i = attempt - 1 + Nat.succ i := by omega
        rw [hexp]
      cases o' with
      | ok b' => simp [serverOrTransport] at ho'
      | retryAfter n => simp [serverOrTransport] at ho'
      | transportErr =>
        simp only [List.cons_append, request_go]
        rw [if_neg (by simp [giveup, MAX_TRIES]; omega)]
        simp only [List.append_eq, hrec]
        rw [hdel]
        simp [List.length_cons]
      | httpErr s b' =>
        simp only [serverOrTransport, decide_eq_true_eq] at ho'
        simp only [List.cons_append, request_go]
        rw [if_neg (by simp [giveup, MAX_TRIES]; omega)]
        simp only [List.append_eq, hrec]
        rw [hdel]
        simp [List.length_cons]

/-- **C6.** The request executor gives up immediately with no retry on any
response status in 400–499, propagating an error that carries the status
and the body; it retries transport-level and server (5xx) errors with
exponential backoff of factor 2 up to 5 attempts total, returning the first
success or, after the fifth failing attempt, propagating the last error. -/
theorem C6_request_retry_policy :
    (∀ (fuel s : Nat) (b : String) (rest : List Outcome),
      1 ≤ fuel → 400 ≤ s → s < 500 →
      request fuel (.httpErr s b :: rest)
        = some ⟨.error (.http s b), rest, []⟩) ∧
    (∀ (errs : List Outcome) (body : String) (rest : List Outcome)
      (fuel : Nat),
      (∀ o ∈ errs, serverOrTransport o = true) →
      errs.length < MAX_TRIES → errs.length + 1 ≤ fuel →
      request fuel (errs ++ .ok body :: rest)
        = some ⟨.ok body, rest,
            (List.range errs.length).map fun i => FACTOR * 2 ^ i⟩) ∧
    (∀ (errs : List Outcome) (o : Outcome) (rest : List Outcome)
      (fuel : Nat),
      (∀ o' ∈ errs, serverOrTransport o' = true) →
      serverOrTransport o = true →
      errs.length + 1 = MAX_TRIES → MAX_TRIES ≤ fuel →
      request fuel (errs ++ o :: rest)
        = some ⟨.error (raisedErr o), rest,
            (List.range errs.length).map fun i => FACTOR * 2 ^ i⟩) := by
  refine ⟨?_, ?_, ?_⟩
  · intro fuel s b rest hfuel h4 h5
    match fuel, hfuel with
    | fuel + 1, _ =>
      simp only [request, request_go]
      rw [if_pos (by simp [giveup]; omega)]
  · intro errs body rest fuel hall hlen hfuel
    have h := request_go_errs_ok errs fuel 1 body rest hall le_rfl
      (by simp only [MAX_TRIES] at hlen ⊢; omega) hfuel
    simpa using h
  · intro errs o rest fuel hall ho hlen hfuel
    have h := request_go_errs_exhaust errs o fuel 1 rest hall ho le_rfl
      (by simp only [MAX_TRIES] at hlen ⊢; omega)
      (by simp only [MAX_TRIES] at hlen hfuel; omega)
    simpa using h

/-- **C6 witness.** A 404 is propagated with no retry; one transport error
and one 503 are retried with delays 2 and 4 before a success; five straight
retryable failures exhaust the budget with delays 2, 4, 8, 16 and propagate
the last error. -/
theorem C6_request_retry_policy_witness :
    request 5 [.httpErr 404 "missing"]
      = some ⟨.error (.http 404 "missing"), [], []⟩ ∧
    request 5 [.transportErr, .httpErr 503 "s", .ok "payload"]
      = some ⟨.ok "payload", [], [2, 4]⟩ ∧
    request 5 [.transportErr, .transportErr, .transportErr, .transportErr,
        .httpErr 500 "e"]
      = some ⟨.error (.http 500 "e"), [], [2, 4, 8, 16]⟩ := by
  refine ⟨?_, ?_, ?_⟩
  · exact C6_request_retry_policy.1 5 404 "missing" []
      (by decide) (by decide) (by decide)
  · have h := C6_request_retry_policy.2.1
      [.transportErr, .httpErr 503 "s"] "payload" [] 5
      (by decide) (by decide) (by decide)
    simpa [List.range_succ, FACTOR] using h
  · have h := C6_request_retry_policy.2.2
      [.transportErr, .transportErr, .transportErr, .transportErr]
      (.httpErr 500 "e") [] 5 (by decide) (by decide) (by decide) (by decide)
    simpa [List.range_succ, FACTOR, raisedErr] using h

/-! ## Order facts about `pyLe` -/

theorem lexLe_refl : ∀ l : List Char, lexLe l l = true
  | [] => rfl
  | a :: as => by simp [lexLe, lexLe_refl as]

theorem pyLe_refl (s : String) : pyLe s s = true := lexLe_refl _

theorem lexLe_antisymm : ∀ a b : List Char,
    lexLe a b = true → lexLe b a = true → a = b
  | [], [], _, _ => rfl
  | [], _ :: _, _, h => by simp [lexLe] at h
  | _ :: _, [], h, _ => by simp [lexLe] at h
  | a :: as, b :: bs, h1, h2 => by
    simp only [lexLe] at h1 h2
    by_cases hab : a.toNat < b.toNat
    · rw [if_neg (by omega : ¬ b.toNat < a.toNat), if_pos hab] at h2
      exact absurd h2 (by simp)
    · by_cases hba : b.toNat < a.toNat
      · rw [if_neg hab, if_pos hba] at h1
        exact absurd h1 (by simp)
      · have hn : a.toNat = b.toNat := by omega
        have hc : a = b := Char.ext (UInt32.ext hn)
        rw [if_neg hab, if_neg hba] at h1
        rw [if_neg hba, if_neg hab] at h2
        rw [hc]
        exact congrArg (List.cons b) (lexLe_antisymm as bs h1 h2)

theorem pyLe_antisymm {a b : String} (h1 : pyLe a b = true)
    (h2 : pyLe b a = true) : a = b := by
  have h := lexLe_antisymm a.data b.data h1 h2
  cases a
  cases b
  exact congrArg String.mk h

/-! ## Trace lemmas -/

theorem advances_append (l₁ l₂ : List Event) :
    advances (l₁ ++ l₂) = advances l₁ ++ advances l₂ := by
  induction l₁ with
  | nil => rfl
  | cons e l ih => cases e <;> simp [advances, ih]

theorem advances_map_emit {α : Type} (s : String) (f : α → Rec)
    (l : List α) :
    advances (l.map fun r => Event.emit s (f r)) = [] := by
  induction l with
  | nil => rfl
  | cons a l ih => simp [advances, ih]

theorem emittedStream_append (s : String) (l₁ l₂ : List Event) :
    emittedStream s (l₁ ++ l₂)
      = emittedStream s l₁ ++ emittedStream s l₂ := by
  induction l₁ with
  | nil => rfl
  | cons e l ih =>
    cases e with
    | emit s' r => by_cases h : s' = s <;> simp [emittedStream, h, ih]
    | advance ns v => simp [emittedStream, ih]
    | writeState => simp [emittedStream, ih]

theorem emittedStream_map_emit {α : Type} (s s' : String) (f : α → Rec)
    (l : List α) :
    emittedStream s' (l.map fun r => Event.emit s (f r))
      = if s = s' then l.map f else [] := by
  induction l with
  | nil => simp [emittedStream]
  | cons a l ih =>
    by_cases h : s = s'
    · subst h
      simp [emittedStream, ih]
    · simp [emittedStream, h, ih]

theorem advanceThenEmit_append_emits {α : Type} (s : String) (f : α → Rec)
    (l : List α) (tr : List Event) :
    advanceThenEmit ((l.map fun r => Event.emit s (f r)) ++ tr)
      = advanceThenEmit tr := by
  induction l with
  | nil => rfl
  | cons a l ih => simpa [advanceThenEmit] using ih

/-! ## Shapes of the sync traces -/

theorem syncSubFetch_ok (stream start : String) (rows : List SubRow)
    (mk : SubRow → Rec) (recover : Nat → Bool) :
    syncSubFetch stream start (.ok rows) mk recover
      = .ok ((rows.filter fun r => pyLe start r.updated_at).map
          fun r => Event.emit stream (mk r)) := rfl

theorem syncSubFetch_err_recover (stream start : String) (s : Nat)
    (mk : SubRow → Rec) (recover : Nat → Bool) (h : recover s = true) :
    syncSubFetch stream start (.err s) mk recover = .ok [] := by
  simp [syncSubFetch, h]

theorem syncSubFetch_err_fatal (stream start : String) (s : Nat)
    (mk : SubRow → Rec) (recover : Nat → Bool) (h : recover s = false) :
    syncSubFetch stream start (.err s) mk recover
      = .error (.http s) := by
  simp [syncSubFetch, h]

theorem syncSubFetch_events (stream start : String) (f : Fetch)
    (mk : SubRow → Rec) (recover : Nat → Bool) (evs : List Event)
    (h : syncSubFetch stream start f mk recover = .ok evs) :
    ∃ rs : List SubRow, evs = rs.map fun r => Event.emit stream (mk r) := by
  cases f with
  | ok rows =>
    refine ⟨rows.filter fun r => pyLe start r.updated_at, ?_⟩
    simpa [syncSubFetch] using h.symm
  | err s =>
    by_cases hr : recover s = true
    · refine ⟨[], ?_⟩
      rw [syncSubFetch_err_recover _ _ _ _ _ hr] at h
      simpa using h.symm
    · rw [syncSubFetch_err_fatal _ _ _ _ _ (by simpa using hr)] at h
      exact absurd h (by simp)

theorem syncTicketsGo_nil (ns start : String) (st : SyncState) :
    syncTicketsGo ns start st [] = ([], st, none) := rfl

theorem syncTicketsGo_cons_keyErr (ns start : String) (st : SyncState)
    (t : TicketInput) (rest : List TicketInput)
    (hcf : t.row.custom_fields = none) :
    syncTicketsGo ns start st (t :: rest)
      = ([], st, some (.keyError "custom_fields")) := by
  simp [syncTicketsGo, hcf]

theorem syncTicketsGo_cons_convErr (ns start : String) (st : SyncState)
    (t : TicketInput) (rest : List TicketInput) (cf : Dict) (e : RunError)
    (hcf : t.row.custom_fields = some cf)
    (hc : syncSubFetch "conversations" start t.conversations Rec.sub
      (fun s => s = 403) = .error e) :
    syncTicketsGo ns start st (t :: rest) = ([], st, some e) := by
  simp [syncTicketsGo, hcf, hc]

theorem syncTicketsGo_cons_satErr (ns start : String) (st : SyncState)
    (t : TicketInput) (rest : List TicketInput) (cf : Dict)
    (convE : List Event) (e : RunError)
    (hcf : t.row.custom_fields = some cf)
    (hc : syncSubFetch "conversations" start t.conversations Rec.sub
      (fun s => s = 403) = .ok convE)
    (hs : syncSubFetch "satisfaction_ratings" start t.satisfaction_fetch
      mkSat (fun s => s = 403) = .error e) :
    syncTicketsGo ns start st (t :: rest) = (convE, st, some e) := by
  simp [syncTicketsGo, hcf, hc, hs]

theorem syncTicketsGo_cons_teErr (ns start : String) (st : SyncState)
    (t : TicketInput) (rest : List TicketInput) (cf : Dict)
    (convE satE : List Event) (e : RunError)
    (hcf : t.row.custom_fields = some cf)
    (hc : syncSubFetch "conversations" start t.conversations Rec.sub
      (fun s => s = 403) = .ok convE)
    (hs : syncSubFetch "satisfaction_ratings" start t.satisfaction_fetch
      mkSat (fun s => s = 403) = .ok satE)
    (ht : syncSubFetch "time_entries" start t.time_entries Rec.sub
      (fun s => s = 403 || s = 404) = .error e) :
    syncTicketsGo ns start st (t :: rest) = (convE ++ satE, st, some e) := by
  simp [syncTicketsGo, hcf, hc, hs, ht]

theorem syncTicketsGo_cons_ok (ns start : String) (st : SyncState)
    (t : TicketInput) (rest : List TicketInput) (cf : Dict)
    (convE satE teE : List Event)
    (hcf : t.row.custom_fields = some cf)
    (hc : syncSubFetch "conversations" start t.conversations Rec.sub
      (fun s => s = 403) = .ok convE)
    (hs : syncSubFetch "satisfaction_ratings" start t.satisfaction_fetch
      mkSat (fun s => s = 403) = .ok satE)
    (ht : syncSubFetch "time_entries" start t.time_entries Rec.sub
      (fun s => s = 403 || s = 404) = .ok teE) :
    syncTicketsGo ns start st (t :: rest)
      = (convE ++ satE ++ teE
          ++ Event.advance ns t.row.updated_at
          :: Event.emit "tickets" (.ticket ⟨t.row.id, t.row.updated_at,
              transform_dict cf "name" "value" true⟩)
          :: Event.writeState
          :: (syncTicketsGo ns start
              (update_state st ns t.row.updated_at) rest).1,
        (syncTicketsGo ns start
          (update_state st ns t.row.updated_at) rest).2) := by
  simp [syncTicketsGo, hcf, hc, hs, ht]

theorem syncFlatGo_trace (entity start : String) (rows : List FlatRow) :
    ∀ st : SyncState, (syncFlatGo entity start st rows).1
      = (rows.filter fun r => pyLe start r.updated_at).flatMap
          fun r => [Event.advance entity r.updated_at,
                    Event.emit entity (.flat (outFlat r))] := by
  induction rows with
  | nil => intro st; rfl
  | cons r rows ih =>
    intro st
    by_cases h : pyLe start r.updated_at = true
    · simp [syncFlatGo, h, List.filter_cons, ih]
    · simp [syncFlatGo, h, List.filter_cons, ih]

theorem advances_flatMap_pair (e : String) (g : FlatRow → String)
    (f : FlatRow → Rec) (rs : List FlatRow) :
    advances (rs.flatMap fun r => [Event.advance e (g r), Event.emit e (f r)])
      = rs.map g := by
  induction rs with
  | nil => rfl
  | cons r rs ih =>
    rw [List.flatMap_cons, advances_append, ih]
    simp [advances]

theorem emittedStream_flatMap_pair (e s : String) (g : FlatRow → String)
    (f : FlatRow → Rec) (rs : List FlatRow) :
    emittedStream s
        (rs.flatMap fun r => [Event.advance e (g r), Event.emit e (f r)])
      = if e = s then rs.map f else [] := by
  induction rs with
  | nil => simp [emittedStream]
  | cons r rs ih =>
    rw [List.flatMap_cons, emittedStream_append, ih]
    by_cases h : e = s
    · subst h
      simp [emittedStream]
    · simp [emittedStream, h]

/-! ## C1: order of watermark advance and record emission -/

/-- **C1 (counterexample).** The claim that the watermark is advanced only
after the record carrying that bookmark has been emitted is false: in a flat
sync of one `roles` record, the trace is
`[advance, emit, writeState]` — the advance (line 230) precedes the emission
(line 231), so the advance is not preceded by any emission carrying its
value. -/
theorem C1_counterexample :
    advanceOnlyAfterEmit []
      (sync_time_filtered "2020-01-01T00:00:00Z" [] "roles"
        [⟨1, "2021-06-01T00:00:00Z", none⟩]).1 = false := by decide

/-- Auxiliary: appending a trace that already satisfies `advanceThenEmit`
after a flat-sync loop trace preserves the property. -/
theorem advanceThenEmit_flatGo (e start : String) (rows : List FlatRow) :
    ∀ (st : SyncState) (tail : List Event), advanceThenEmit tail = true →
      advanceThenEmit ((syncFlatGo e start st rows).1 ++ tail) = true := by
  induction rows with
  | nil => intro st tail htail; simpa [syncFlatGo]
  | cons r rows ih =>
    intro st tail htail
    by_cases h : pyLe start r.updated_at = true
    · simp only [syncFlatGo, h, if_true, List.cons_append]
      simpa [advanceThenEmit, bookmarkOf, outFlat] using ih _ tail htail
    · simpa [syncFlatGo, h] using ih _ tail htail

/-- Auxiliary: every trace of the ticket loop satisfies `advanceThenEmit`,
including traces truncated by a fatal error. -/
theorem advanceThenEmit_ticketsGo (ns start : String)
    (inputs : List TicketInput) :
    ∀ st : SyncState,
      advanceThenEmit (syncTicketsGo ns start st inputs).1 = true := by
  induction inputs with
  | nil => intro st; rfl
  | cons t rest ih =>
    intro st
    cases hcf : t.row.custom_fields with
    | none =>
      rw [syncTicketsGo_cons_keyErr ns start st t rest hcf]
      rfl
    | some cf =>
      cases hc : syncSubFetch "conversations" start t.conversations Rec.sub
          (fun s => s = 403) with
      | error e =>
        rw [syncTicketsGo_cons_convErr ns start st t rest cf e hcf hc]
        rfl
      | ok convE =>
        obtain ⟨rsC, rfl⟩ := syncSubFetch_events _ _ _ _ _ _ hc
        cases hs : syncSubFetch "satisfaction_ratings" start
            t.satisfaction_fetch mkSat (fun s => s = 403) with
        | error e =>
          rw [syncTicketsGo_cons_satErr ns start st t rest cf _ e hcf hc hs]
          simpa using advanceThenEmit_append_emits "conversations" Rec.sub rsC []
        | ok satE =>
          obtain ⟨rsS, rfl⟩ := syncSubFetch_events _ _ _ _ _ _ hs
          cases ht : syncSubFetch "time_entries" start t.time_entries Rec.sub
              (fun s => s = 403 || s = 404) with
          | error e =>
            rw [syncTicketsGo_cons_teErr ns start st t rest cf _ _ e hcf hc hs ht]
            rw [advanceThenEmit_append_emits "conversations" Rec.sub rsC]
            simpa using advanceThenEmit_append_emits "satisfaction_ratings" mkSat rsS []
          | ok teE =>
            obtain ⟨rsT, rfl⟩ := syncSubFetch_events _ _ _ _ _ _ ht
            rw [syncTicketsGo_cons_ok ns start st t rest cf _ _ _ hcf hc hs ht]
            rw [List.append_assoc, List.append_assoc,
              advanceThenEmit_append_emits "conversations" Rec.sub rsC,
              advanceThenEmit_append_emits "satisfaction_ratings" mkSat rsS,
              advanceThenEmit_append_emits "time_entries" Rec.sub rsT]
            simpa [advanceThenEmit, bookmarkOf] using ih _

/-- **C1 (amended).** The watermark for a record's namespace is advanced to
the record's bookmark value **immediately before** (not after) the record is
emitted: in every trace of both sync strategies, each watermark advance is
directly followed by the emission of the record carrying the advanced
value. -/
theorem C1_advance_immediately_before_emit :
    (∀ (cs : String) (st : SyncState) (e : String) (rows : List FlatRow),
      advanceThenEmit (sync_time_filtered cs st e rows).1 = true) ∧
    (∀ (cs : String) (st : SyncState) (pf : Option String)
      (inputs : List TicketInput),
      advanceThenEmit (sync_tickets_by_filter cs st pf inputs).1 = true) := by
  constructor
  · intro cs st e rows
    exact advanceThenEmit_flatGo e (get_start st cs e) rows st
      [Event.writeState] rfl
  · intro cs st pf inputs
    exact advanceThenEmit_ticketsGo _ _ inputs st

/-! ## C2: re-run emissions -/

/-- **C2 (counterexample).** Re-running with the same persisted state and
unchanged upstream data does **not** emit zero records: after a first
`roles` run over two records persists the watermark
`2021-06-01T00:00:00Z`, a second run over the same upstream data re-emits
the record whose bookmark equals the watermark (the filter is
`bookmark >= start`, line 226, which equality passes). -/
theorem C2_counterexample :
    (sync_time_filtered "2020-01-01T00:00:00Z" [] "roles"
        [⟨1, "2021-01-01T00:00:00Z", none⟩, ⟨2, "2021-06-01T00:00:00Z", none⟩]).2
      = [("roles", "2021-06-01T00:00:00Z")] ∧
    emitCount (sync_time_filtered "2020-01-01T00:00:00Z"
        (sync_time_filtered "2020-01-01T00:00:00Z" [] "roles"
          [⟨1, "2021-01-01T00:00:00Z", none⟩,
           ⟨2, "2021-06-01T00:00:00Z", none⟩]).2
        "roles"
        [⟨1, "2021-01-01T00:00:00Z", none⟩,
         ⟨2, "2021-06-01T00:00:00Z", none⟩]).1 = 1 := by decide

/-- **C2 (amended).** On a re-run whose starting watermark dominates every
upstream bookmark (the situation after a completed run over unchanged
data), flat sync emits exactly the records whose bookmark **equals** the
starting watermark — records strictly below it are rejected by
`bookmark >= start`, records equal to it pass the filter again. -/
theorem C2_rerun_emits_boundary (cs : String) (st : SyncState) (e : String)
    (rows : List FlatRow)
    (h : ∀ r ∈ rows, pyLe r.updated_at (get_start st cs e) = true) :
    emittedStream e (sync_time_filtered cs st e rows).1
      = (rows.filter fun r => r.updated_at == get_start st cs e).map
          fun r => Rec.flat (outFlat r) := by
  have hfe : rows.filter (fun r => pyLe (get_start st cs e) r.updated_at)
      = rows.filter fun r => r.updated_at == get_start st cs e := by
    refine List.filter_congr fun r hr => ?_
    by_cases hb : r.updated_at = get_start st cs e
    · rw [hb]
      simp [pyLe_refl]
    · have hnb : (r.updated_at == get_start st cs e) = false := by
        simpa using hb
      rw [hnb]
      by_cases hp : pyLe (get_start st cs e) r.updated_at = true
      · exact absurd (pyLe_antisymm hp (h r hr)) fun q => hb q.symm
      · simpa using hp
  show emittedStream e ((syncFlatGo e (get_start st cs e) st rows).1
      ++ [Event.writeState]) = _
  rw [emittedStream_append, syncFlatGo_trace, hfe,
    emittedStream_flatMap_pair]
  simp [emittedStream]

/-- **C2 (amended) witness.** With the persisted watermark
`2021-06-01T00:00:00Z` and the same two upstream records, the second run
emits exactly the boundary record. -/
theorem C2_rerun_emits_boundary_witness :
    emittedStream "roles"
      (sync_time_filtered "2020-01-01T00:00:00Z"
        [("roles", "2021-06-01T00:00:00Z")] "roles"
        [⟨1, "2021-01-01T00:00:00Z", none⟩,
         ⟨2, "2021-06-01T00:00:00Z", none⟩]).1
      = [Rec.flat ⟨2, "2021-06-01T00:00:00Z", none⟩] := by
  have h := C2_rerun_emits_boundary "2020-01-01T00:00:00Z"
    [("roles", "2021-06-01T00:00:00Z")] "roles"
    [⟨1, "2021-01-01T00:00:00Z", none⟩, ⟨2, "2021-06-01T00:00:00Z", none⟩]
    (by decide)
  rw [h]
  decide

/-! ## C3: watermark monotonicity -/

/-- **C3 (counterexample).** The watermark store sequence is **not**
non-decreasing for every possible sequence of records the API may return:
flat sync requests no ordering (line 225 passes no `order_by`), and with an
out-of-order response the unconditionally-overwriting advance stores a
smaller value after a larger one. -/
theorem C3_counterexample :
    ¬ List.Pairwise (fun a b => pyLe a b = true)
      (advances (sync_time_filtered "2020-01-01T00:00:00Z" [] "roles"
        [⟨1, "2021-06-01T00:00:00Z", none⟩,
         ⟨2, "2021-01-01T00:00:00Z", none⟩]).1) := by decide

/-- Auxiliary: the advances of a ticket-loop trace are a sublist of the
tickets' bookmarks in arrival order. -/
theorem advances_ticketsGo_sublist (ns start : String)
    (inputs : List TicketInput) :
    ∀ st : SyncState,
      List.Sublist (advances (syncTicketsGo ns start st inputs).1)
        (inputs.map fun i => i.row.updated_at) := by
  induction inputs with
  | nil => intro st; simp [syncTicketsGo_nil, advances]
  | cons t rest ih =>
    intro st
    cases hcf : t.row.custom_fields with
    | none =>
      rw [syncTicketsGo_cons_keyErr ns start st t rest hcf]
      simp [advances]
    | some cf =>
      cases hc : syncSubFetch "conversations" start t.conversations Rec.sub
          (fun s => s = 403) with
      | error e =>
        rw [syncTicketsGo_cons_convErr ns start st t rest cf e hcf hc]
        simp [advances]
      | ok convE =>
        obtain ⟨rsC, rfl⟩ := syncSubFetch_events _ _ _ _ _ _ hc
        cases hs : syncSubFetch "satisfaction_ratings" start
            t.satisfaction_fetch mkSat (fun s => s = 403) with
        | error e =>
          rw [syncTicketsGo_cons_satErr ns start st t rest cf _ e hcf hc hs]
          simp [advances_map_emit]
        | ok satE =>
          obtain ⟨rsS, rfl⟩ := syncSubFetch_events _ _ _ _ _ _ hs
          cases ht : syncSubFetch "time_entries" start t.time_entries Rec.sub
              (fun s => s = 403 || s = 404) with
          | error e =>
            rw [syncTicketsGo_cons_teErr ns start st t rest cf _ _ e hcf hc hs ht]
            simp [advances_append, advances_map_emit, advances]
          | ok teE =>
            obtain ⟨rsT, rfl⟩ := syncSubFetch_events _ _ _ _ _ _ ht
            rw [syncTicketsGo_cons_ok ns start st t rest cf _ _ _ hcf hc hs ht]
            simp only [List.append_assoc, advances_append,
              advances_map_emit, advances, List.nil_append, List.map_cons]
            exact List.Sublist.cons₂ _ (ih _)

/-- **C3 (amended).** Within a single run the stored watermark sequence of
every namespace is monotonically non-decreasing **provided the API returns
the records in non-decreasing bookmark order** (the engine requests that
order only for tickets and performs no client-side resort; flat sync relies
on the server's default order). -/
theorem C3_watermark_monotone_when_sorted :
    (∀ (cs : String) (st : SyncState) (e : String) (rows : List FlatRow),
      List.Pairwise (fun a b => pyLe a b = true)
        (rows.map FlatRow.updated_at) →
      List.Pairwise (fun a b => pyLe a b = true)
        (advances (sync_time_filtered cs st e rows).1)) ∧
    (∀ (cs : String) (st : SyncState) (pf : Option String)
      (inputs : List TicketInput),
      List.Pairwise (fun a b => pyLe a b = true)
        (inputs.map fun i => i.row.updated_at) →
      List.Pairwise (fun a b => pyLe a b = true)
        (advances (sync_tickets_by_filter cs st pf inputs).1)) := by
  constructor
  · intro cs st e rows hsorted
    have htr : advances (sync_time_filtered cs st e rows).1
        = (rows.filter fun r =>
            pyLe (get_start st cs e) r.updated_at).map FlatRow.updated_at := by
      show advances ((syncFlatGo e (get_start st cs e) st rows).1
          ++ [Event.writeState]) = _
      rw [advances_append, syncFlatGo_trace, advances_flatMap_pair]
      simp [advances]
    rw [htr]
    exact hsorted.sublist (List.Sublist.map _ (List.filter_sublist _))
  · intro cs st pf inputs hsorted
    exact hsorted.sublist (advances_ticketsGo_sublist _ _ inputs st)

/-- **C3 (amended) witness.** A sorted two-record flat run yields a
non-decreasing advance sequence. -/
theorem C3_watermark_monotone_when_sorted_witness :
    List.Pairwise (fun a b => pyLe a b = true)
      (advances (sync_time_filtered "2020-01-01T00:00:00Z" [] "roles"
        [⟨1, "2021-01-01T00:00:00Z", none⟩,
         ⟨2, "2021-06-01T00:00:00Z", none⟩]).1) :=
  C3_watermark_monotone_when_sorted.1 "2020-01-01T00:00:00Z" [] "roles"
    [⟨1, "2021-01-01T00:00:00Z", none⟩, ⟨2, "2021-06-01T00:00:00Z", none⟩]
    (by decide)

/-! ## C4: sub-resource error isolation -/

/-- **C4.** While syncing one ticket, a 403 from any of the three
sub-resource fetches and a 404 from the time-entries fetch are recovered
locally: no records are emitted for the failing sub-resource, but the
ticket and the other sub-resources' surviving records are still emitted and
the run continues (`err = none`); any other `HTTPError` from a sub-resource
fetch propagates and is fatal, and the failing ticket is not emitted. -/
theorem C4_sub_resource_isolation (ns start : String) (st : SyncState)
    (t : TicketRow) (cf : Dict) (hcf : t.custom_fields = some cf) :
    (∀ satR teR : List SubRow,
      (syncTicketsGo ns start st [⟨t, .err 403, .ok satR, .ok teR⟩]).2.2
        = none ∧
      emittedStream "conversations"
        (syncTicketsGo ns start st [⟨t, .err 403, .ok satR, .ok teR⟩]).1
        = [] ∧
      emittedStream "tickets"
        (syncTicketsGo ns start st [⟨t, .err 403, .ok satR, .ok teR⟩]).1
        = [.ticket ⟨t.id, t.updated_at, transform_dict cf "name" "value" true⟩] ∧
      emittedStream "satisfaction_ratings"
        (syncTicketsGo ns start st [⟨t, .err 403, .ok satR, .ok teR⟩]).1
        = (satR.filter fun r => pyLe start r.updated_at).map mkSat ∧
      emittedStream "time_entries"
        (syncTicketsGo ns start st [⟨t, .err 403, .ok satR, .ok teR⟩]).1
        = (teR.filter fun r => pyLe start r.updated_at).map Rec.sub) ∧
    (∀ convR teR : List SubRow,
      (syncTicketsGo ns start st [⟨t, .ok convR, .err 403, .ok teR⟩]).2.2
        = none ∧
      emittedStream "satisfaction_ratings"
        (syncTicketsGo ns start st [⟨t, .ok convR, .err 403, .ok teR⟩]).1
        = [] ∧
      emittedStream "tickets"
        (syncTicketsGo ns start st [⟨t, .ok convR, .err 403, .ok teR⟩]).1
        = [.ticket ⟨t.id, t.updated_at, transform_dict cf "name" "value" true⟩] ∧
      emittedStream "time_entries"
        (syncTicketsGo ns start st [⟨t, .ok convR, .err 403, .ok teR⟩]).1
        = (teR.filter fun r => pyLe start r.updated_at).map Rec.sub) ∧
    (∀ (convR satR : List SubRow) (s : Nat), s = 403 ∨ s = 404 →
      (syncTicketsGo ns start st [⟨t, .ok convR, .ok satR, .err s⟩]).2.2
        = none ∧
      emittedStream "time_entries"
        (syncTicketsGo ns start st [⟨t, .ok convR, .ok satR, .err s⟩]).1
        = [] ∧
      emittedStream "tickets"
        (syncTicketsGo ns start st [⟨t, .ok convR, .ok satR, .err s⟩]).1
        = [.ticket ⟨t.id, t.updated_at, transform_dict cf "name" "value" true⟩]) ∧
    (∀ (satF teF : Fetch) (s : Nat), s ≠ 403 →
      syncTicketsGo ns start st [⟨t, .err s, satF, teF⟩]
        = ([], st, some (.http s))) ∧
    (∀ (convR : List SubRow) (teF : Fetch) (s : Nat), s ≠ 403 →
      (syncTicketsGo ns start st [⟨t, .ok convR, .err s, teF⟩]).2.2
        = some (.http s) ∧
      emittedStream "tickets"
        (syncTicketsGo ns start st [⟨t, .ok convR, .err s, teF⟩]).1 = []) ∧
    (∀ (convR satR : List SubRow) (s : Nat), s ≠ 403 → s ≠ 404 →
      (syncTicketsGo ns start st [⟨t, .ok convR, .ok satR, .err s⟩]).2.2
        = some (.http s) ∧
      emittedStream "tickets"
        (syncTicketsGo ns start st [⟨t, .ok convR, .ok satR, .err s⟩]).1
        = []) := by
  refine ⟨?_, ?_, ?_, ?_, ?_, ?_⟩
  · intro satR teR
    rw [syncTicketsGo_cons_ok ns start st _ [] cf [] _ _ hcf
      (syncSubFetch_err_recover _ _ 403 _ _ (by decide))
      (syncSubFetch_ok _ _ satR _ _) (syncSubFetch_ok _ _ teR _ _)]
    refine ⟨rfl, ?_, ?_, ?_, ?_⟩ <;>
      simp [emittedStream_append, emittedStream_map_emit, emittedStream,
        syncTicketsGo_nil]
  · intro convR teR
    rw [syncTicketsGo_cons_ok ns start st _ [] cf _ [] _ hcf
      (syncSubFetch_ok _ _ convR _ _)
      (syncSubFetch_err_recover _ _ 403 _ _ (by decide))
      (syncSubFetch_ok _ _ teR _ _)]
    refine ⟨rfl, ?_, ?_, ?_⟩ <;>
      simp [emittedStream_append, emittedStream_map_emit, emittedStream,
        syncTicketsGo_nil]
  · intro convR satR s hs
    rw [syncTicketsGo_cons_ok ns start st _ [] cf _ _ [] hcf
      (syncSubFetch_ok _ _ convR _ _) (syncSubFetch_ok _ _ satR _ _)
      (syncSubFetch_err_recover _ _ s _ _ (by rcases hs with h | h <;> simp [h]))]
    refine ⟨rfl, ?_, ?_⟩ <;>
      simp [emittedStream_append, emittedStream_map_emit, emittedStream,
        syncTicketsGo_nil]
  · intro satF teF s hs
    exact syncTicketsGo_cons_convErr ns start st _ [] cf (.http s) hcf
      (syncSubFetch_err_fatal _ _ s _ _ (by simp [hs]))
  · intro convR teF s hs
    rw [syncTicketsGo_cons_satErr ns start st _ [] cf _ (.http s) hcf
      (syncSubFetch_ok _ _ convR _ _)
      (syncSubFetch_err_fatal _ _ s _ _ (by simp [hs]))]
    exact ⟨rfl, by simp [emittedStream_map_emit]⟩
  · intro convR satR s hs hs4
    rw [syncTicketsGo_cons_teErr ns start st _ [] cf _ _ (.http s) hcf
      (syncSubFetch_ok _ _ convR _ _) (syncSubFetch_ok _ _ satR _ _)
      (syncSubFetch_err_fatal _ _ s _ _ (by simp [hs, hs4]))]
    exact ⟨rfl, by simp [emittedStream_append, emittedStream_map_emit]⟩

/-- **C4 witness.** The spec's scenario: satisfaction ratings return 403,
conversations and time entries return one in-range row each — the ticket
and both surviving sub-resource rows are emitted, no satisfaction ratings,
and the run continues; with a 500 from conversations instead, the run
fails and the ticket is not emitted. -/
theorem C4_sub_resource_isolation_witness :
    ((syncTicketsGo "tickets" "2020-01-01T00:00:00Z" []
        [⟨⟨7, "2021-03-01T00:00:00Z", some [], none⟩,
          .ok [⟨21, "2021-02-01T00:00:00Z", []⟩], .err 403,
          .ok [⟨22, "2021-02-02T00:00:00Z", []⟩]⟩]).2.2 = none ∧
      emittedStream "satisfaction_ratings"
        (syncTicketsGo "tickets" "2020-01-01T00:00:00Z" []
          [⟨⟨7, "2021-03-01T00:00:00Z", some [], none⟩,
            .ok [⟨21, "2021-02-01T00:00:00Z", []⟩], .err 403,
            .ok [⟨22, "2021-02-02T00:00:00Z", []⟩]⟩]).1 = [] ∧
      emittedStream "tickets"
        (syncTicketsGo "tickets" "2020-01-01T00:00:00Z" []
          [⟨⟨7, "2021-03-01T00:00:00Z", some [], none⟩,
            .ok [⟨21, "2021-02-01T00:00:00Z", []⟩], .err 403,
            .ok [⟨22, "2021-02-02T00:00:00Z", []⟩]⟩]).1
        = [.ticket ⟨7, "2021-03-01T00:00:00Z", []⟩] ∧
      emittedStream "time_entries"
        (syncTicketsGo "tickets" "2020-01-01T00:00:00Z" []
          [⟨⟨7, "2021-03-01T00:00:00Z", some [], none⟩,
            .ok [⟨21, "2021-02-01T00:00:00Z", []⟩], .err 403,
            .ok [⟨22, "2021-02-02T00:00:00Z", []⟩]⟩]).1
        = [Rec.sub ⟨22, "2021-02-02T00:00:00Z", []⟩]) ∧
    syncTicketsGo "tickets" "2020-01-01T00:00:00Z" []
        [⟨⟨7, "2021-03-01T00:00:00Z", some [], none⟩, .err 500,
          .ok [], .ok []⟩]
      = ([], [], some (.http 500)) := by
  constructor
  · have h := (C4_sub_resource_isolation "tickets" "2020-01-01T00:00:00Z" []
      ⟨7, "2021-03-01T00:00:00Z", some [], none⟩ [] rfl).2.1
      [⟨21, "2021-02-01T00:00:00Z", []⟩] [⟨22, "2021-02-02T00:00:00Z", []⟩]
    refine ⟨h.1, h.2.1, ?_, ?_⟩
    · rw [h.2.2.1]
      decide
    · rw [h.2.2.2]
      decide
  · exact (C4_sub_resource_isolation "tickets" "2020-01-01T00:00:00Z" []
      ⟨7, "2021-03-01T00:00:00Z", some [], none⟩ [] rfl).2.2.2.1
      (.ok []) (.ok []) 500 (by decide)

/-! ## C9: tickets are emitted unconditionally -/

/-- Auxiliary: in an error-free ticket loop, the records emitted under the
`tickets` stream are exactly the input tickets, in order, with no bookmark
filtering. -/
theorem emittedTickets_ticketsGo (ns start : String)
    (inputs : List TicketInput) :
    ∀ st : SyncState, (syncTicketsGo ns start st inputs).2.2 = none →
      emittedStream "tickets" (syncTicketsGo ns start st inputs).1
        = inputs.map fun i => Rec.ticket (outTicketRow i.row) := by
  induction inputs with
  | nil => intro st _; rfl
  | cons t rest ih =>
    intro st hok
    cases hcf : t.row.custom_fields with
    | none =>
      rw [syncTicketsGo_cons_keyErr ns start st t rest hcf] at hok
      exact absurd hok (by simp)
    | some cf =>
      cases hc : syncSubFetch "conversations" start t.conversations Rec.sub
          (fun s => s = 403) with
      | error e =>
        rw [syncTicketsGo_cons_convErr ns start st t rest cf e hcf hc] at hok
        exact absurd hok (by simp)
      | ok convE =>
        obtain ⟨rsC, rfl⟩ := syncSubFetch_events _ _ _ _ _ _ hc
        cases hs : syncSubFetch "satisfaction_ratings" start
            t.satisfaction_fetch mkSat (fun s => s = 403) with
        | error e =>
          rw [syncTicketsGo_cons_satErr ns start st t rest cf _ e hcf hc hs]
            at hok
          exact absurd hok (by simp)
        | ok satE =>
          obtain ⟨rsS, rfl⟩ := syncSubFetch_events _ _ _ _ _ _ hs
          cases ht : syncSubFetch "time_entries" start t.time_entries Rec.sub
              (fun s => s = 403 || s = 404) with
          | error e =>
            rw [syncTicketsGo_cons_teErr ns start st t rest cf _ _ e hcf hc hs ht]
              at hok
            exact absurd hok (by simp)
          | ok teE =>
            obtain ⟨rsT, rfl⟩ := syncSubFetch_events _ _ _ _ _ _ ht
            rw [syncTicketsGo_cons_ok ns start st t rest cf _ _ _ hcf hc hs ht]
              at hok ⊢
            rw [List.map_cons]
            have hrec := ih (update_state st ns t.row.updated_at) hok
            simp [emittedStream_append, emittedStream_map_emit, emittedStream,
              hrec, outTicketRow, hcf]

/-- **C9.** In hierarchical ticket sync, every ticket record returned by
the API is emitted unconditionally: in an error-free pass the `tickets`
stream carries exactly the input tickets, in order, with no client-side
comparison of the ticket's bookmark against the pass's starting watermark
(only the `updated_since` request parameter restricts which tickets
arrive). -/
theorem C9_tickets_emitted_unconditionally (cs : String) (st : SyncState)
    (pf : Option String) (inputs : List TicketInput)
    (hok : (sync_tickets_by_filter cs st pf inputs).2.2 = none) :
    emittedStream "tickets" (sync_tickets_by_filter cs st pf inputs).1
      = inputs.map fun i => Rec.ticket (outTicketRow i.row) :=
  emittedTickets_ticketsGo _ _ inputs st hok

/-- **C9 witness.** A ticket whose `updated_at` lies strictly below the
pass's starting watermark (stored state `2021-06-01`, ticket `2020-01-01`)
is still emitted. -/
theorem C9_tickets_emitted_unconditionally_witness :
    pyLe "2020-01-01T00:00:00Z"
      (get_start [("tickets", "2021-06-01T00:00:00Z")] "2019-01-01T00:00:00Z"
        "tickets") = true ∧
    "2020-01-01T00:00:00Z"
      ≠ get_start [("tickets", "2021-06-01T00:00:00Z")] "2019-01-01T00:00:00Z"
        "tickets" ∧
    emittedStream "tickets"
      (sync_tickets_by_filter "2019-01-01T00:00:00Z"
        [("tickets", "2021-06-01T00:00:00Z")] none
        [⟨⟨7, "2020-01-01T00:00:00Z", some [], none⟩,
          .ok [], .ok [], .ok []⟩]).1
      = [Rec.ticket ⟨7, "2020-01-01T00:00:00Z", []⟩] := by
  refine ⟨by decide, by decide, ?_⟩
  rw [C9_tickets_emitted_unconditionally "2019-01-01T00:00:00Z"
    [("tickets", "2021-06-01T00:00:00Z")] none
    [⟨⟨7, "2020-01-01T00:00:00Z", some [], none⟩, .ok [], .ok [], .ok []⟩]
    (by decide)]
  decide

/-! ## C10: missing `custom_fields` -/

/-- **C10.** `sync_tickets_by_filter` reads `row['custom_fields']`
unconditionally (line 165): a ticket lacking the key aborts the run with a
`KeyError` before emitting anything; `sync_time_filtered` guards the
transform with a presence check (line 227) and emits such records
unchanged. -/
theorem C10_custom_fields_lookup :
    (∀ (cs : String) (st : SyncState) (pf : Option String) (t : TicketInput)
      (rest : List TicketInput), t.row.custom_fields = none →
      sync_tickets_by_filter cs st pf (t :: rest)
        = ([], st, some (.keyError "custom_fields"))) ∧
    (∀ (cs : String) (st : SyncState) (e : String) (r : FlatRow)
      (rest : List FlatRow), r.custom_fields = none →
      pyLe (get_start st cs e) r.updated_at = true →
      ∃ tl : List Event, (sync_time_filtered cs st e (r :: rest)).1
        = Event.advance e r.updated_at
          :: Event.emit e (.flat ⟨r.id, r.updated_at, none⟩) :: tl) := by
  constructor
  · intro cs st pf t rest hcf
    simp only [sync_tickets_by_filter]
    exact syncTicketsGo_cons_keyErr _ _ st t rest hcf
  · intro cs st e r rest hcf hstart
    refine ⟨(syncFlatGo e (get_start st cs e)
        (update_state st e r.updated_at) rest).1 ++ [Event.writeState], ?_⟩
    simp only [sync_time_filtered, syncFlatGo, hstart, if_true]
    simp [outFlat, hcf]

/-- **C10 witness.** A ticket without `custom_fields` fails the run with a
`KeyError`; a flat `roles` record without `custom_fields` is emitted
unchanged. -/
theorem C10_custom_fields_lookup_witness :
    sync_tickets_by_filter "2020-01-01T00:00:00Z" [] none
        [⟨⟨7, "2021-03-01T00:00:00Z", none, none⟩, .ok [], .ok [], .ok []⟩]
      = ([], [], some (.keyError "custom_fields")) ∧
    ∃ tl : List Event,
      (sync_time_filtered "2020-01-01T00:00:00Z" [] "roles"
          [⟨1, "2021-03-01T00:00:00Z", none⟩]).1
        = Event.advance "roles" "2021-03-01T00:00:00Z"
          :: Event.emit "roles"
              (.flat ⟨1, "2021-03-01T00:00:00Z", none⟩) :: tl := by
  constructor
  · exact C10_custom_fields_lookup.1 "2020-01-01T00:00:00Z" [] none
      ⟨⟨7, "2021-03-01T00:00:00Z", none, none⟩, .ok [], .ok [], .ok []⟩ []
      rfl
  · exact C10_custom_fields_lookup.2 "2020-01-01T00:00:00Z" [] "roles"
      ⟨1, "2021-03-01T00:00:00Z", none⟩ [] rfl (by decide)

end TapFreshdesk
